import Mathlib

/-!
Verification of the bounded position-convergence poller of
`myScripts/motor_diagnostics.py` and `myScripts/wrist_roll_diagnostic.py`.

The two inline polling loops are embedded as Lean functions over a discrete
time base: one tick is a tenth of a second (a decisecond), so the 0.2 s poll
interval of `motor_diagnostics` is 2 ticks and its 5.0 s timeout is 50 ticks,
while the 0.1 s interval of `wrist_roll_diagnostic` is 1 tick and its 3.0 s
timeout is 30 ticks.  Register reads (the sampling callback) are treated as
instantaneous, so the k-th sample of a run is fetched at time
k * interval and the `while time.time() - start_time < timeout` guard is
checked just before that fetch.  Fallible bus operations are embedded as
`Except String` values supplied by the environment.
-/

namespace LeRobotDiag

/-- A sample fetched from the motor bus inside a polling iteration: the raw
`Present_Position` value together with the `Moving` flag. -/
structure Sample where
  value : Int
  busy : Bool
  deriving DecidableEq

/-- Terminal classification of a polling attempt (spec section 3).  Elapsed
times are in deciseconds. -/
inductive PollOutcome where
  | Converged (elapsed : Nat)
  | TimedOut
  | Stuck (elapsed : Nat)
  deriving DecidableEq

/-- Convergence test of `motor_diagnostics.py` line 73:
`abs(current_pos - target_pos) < 30 and not is_moving`. -/
def motorConv (target : Int) (s : Sample) : Bool :=
  decide ((s.value - target).natAbs < 30) && !s.busy

/-- Convergence test of `wrist_roll_diagnostic.py` line 154:
`abs(current - target) < 20 and not is_moving`. -/
def wristConv (target : Int) (s : Sample) : Bool :=
  decide ((s.value - target).natAbs < 20) && !s.busy

/-- Result of one run of the `motor_diagnostics.py` polling loop
(lines 65-82): the terminal classification, the elapsed time (deciseconds)
at which control leaves the loop, the times at which the sampling callback
was invoked, and the final value of the enclosing `current_pos` variable
(which the loop body reassigns on every successful read). -/
structure MotorPollResult where
  outcome : PollOutcome
  exitTime : Nat
  times : List Nat
  cur : Int
  deriving DecidableEq

/-- Record one more sample-fetch time in front of the result of the rest of
a motor polling run. -/
def consTime (t : Nat) (r : MotorPollResult) : MotorPollResult :=
  ⟨r.outcome, r.exitTime, t :: r.times, r.cur⟩

/-- The `motor_diagnostics.py` monitoring loop (lines 66-82), one recursive
step per iteration.  `k` is the iteration index (the sample is fetched at
time `k * 2` deciseconds), `cur` is the enclosing `current_pos` variable.
A failing sample models the `except` handler at line 77: the error is
printed and the loop continues, leaving `current_pos` unchanged.  The
`while`-`else` exit (timeout) is taken as soon as `k * 2 < 50` fails. -/
def motorPollAux (samples : Nat → Except String Sample) (target : Int) :
    Nat → Int → Nat → MotorPollResult
  | 0, cur, k => ⟨.TimedOut, k * 2, [], cur⟩
  | fuel + 1, cur, k =>
    if k * 2 < 50 then
      match samples k with
      | .error _ => consTime (k * 2) (motorPollAux samples target fuel cur (k + 1))
      | .ok s =>
        if motorConv target s then ⟨.Converged (k * 2), k * 2, [k * 2], s.value⟩
        else consTime (k * 2) (motorPollAux samples target fuel s.value (k + 1))
    else ⟨.TimedOut, k * 2, [], cur⟩

/-- The full polling loop of `motor_diagnostics.py` starting from
`current_pos = cur0`.  The loop runs at most 25 iterations
(k * 0.2 s < 5.0 s), so fuel 26 is never exhausted. -/
def motorPoll (samples : Nat → Except String Sample) (target cur0 : Int) :
    MotorPollResult :=
  motorPollAux samples target 26 cur0 0

/-- Result of one run of the `wrist_roll_diagnostic.py` polling loop
(lines 136-164): terminal classification, exit time and sample times in
deciseconds. -/
structure WristPollResult where
  outcome : PollOutcome
  exitTime : Nat
  times : List Nat
  deriving DecidableEq

/-- The `stuck_count` update of `wrist_roll_diagnostic.py` lines 146-149:
incremented when the position moved by less than 2 raw units since the
previous sample, reset to 0 otherwise (and on the first sample, when
`last_pos is None`). -/
def stuckUpdate (lastPos : Option Int) (stuckCount : Nat) (v : Int) : Nat :=
  match lastPos with
  | some lp => if (v - lp).natAbs < 2 then stuckCount + 1 else 0
  | none => 0

/-- Record one more sample-fetch time in front of the result of the rest of
a wrist-roll polling run. -/
def wristCons (t : Nat) (r : WristPollResult) : WristPollResult :=
  ⟨r.outcome, r.exitTime, t :: r.times⟩

/-- The `wrist_roll_diagnostic.py` monitoring loop (lines 141-164).
`lastPos` and `stuckCount` embed the `last_pos` / `stuck_count` variables;
the stuck counter is updated before the convergence and stuck checks, as in
the source.  A failing read is not caught inside this loop: it propagates
to the surrounding handler, hence the `Except` result. -/
def wristPollAux (samples : Nat → Except String Sample) (target : Int) :
    Nat → Option Int → Nat → Nat → Except String WristPollResult
  | 0, _, _, k => .ok ⟨.TimedOut, k, []⟩
  | fuel + 1, lastPos, stuckCount, k =>
    if k < 30 then
      match samples k with
      | .error e => .error e
      | .ok s =>
        if wristConv target s then .ok ⟨.Converged k, k, [k]⟩
        else if 5 < stuckUpdate lastPos stuckCount s.value ∧ s.busy = true then
          .ok ⟨.Stuck k, k, [k]⟩
        else
          (wristPollAux samples target fuel (some s.value)
            (stuckUpdate lastPos stuckCount s.value) (k + 1)).map (wristCons k)
    else .ok ⟨.TimedOut, k, []⟩

/-- The full polling loop of `wrist_roll_diagnostic.py`:
`last_pos = None`, `stuck_count = 0`, at most 30 iterations
(k * 0.1 s < 3.0 s), so fuel 31 is never exhausted. -/
def wristPoll (samples : Nat → Except String Sample) (target : Int) :
    Except String WristPollResult :=
  wristPollAux samples target 31 none 0 0

/-- Lift an infallible simulated sample sequence to the fallible interface. -/
def okSeq (seq : Nat → Sample) : Nat → Except String Sample :=
  fun i => .ok (seq i)

/-- The value of the `stuck_count` variable after the update in iteration
`k` of the wrist polling loop, as a pure fold of the sample sequence: 0 at
the first sample (`last_pos is None`), then `stuckUpdate` against the
previous sample's value.  The stuck break of the source fires at attempt
`k` exactly when `5 < wristStuckCount seq k` and `(seq k).busy = true`. -/
def wristStuckCount (seq : Nat → Sample) : Nat → Nat
  | 0 => 0
  | k + 1 =>
    stuckUpdate (some ((seq k).value)) (wristStuckCount seq k)
      ((seq (k + 1)).value)

/-- The terminal classification of a wrist-roll polling run, `none` when a
read error escaped the loop. -/
def wristOutcome (samples : Nat → Except String Sample) (target : Int) :
    Option PollOutcome :=
  match wristPoll samples target with
  | .ok r => some r.outcome
  | .error _ => none

/-- The sample-fetch times of a wrist-roll polling run (empty when a read
error escaped the loop before it finished). -/
def wristTimes (samples : Nat → Except String Sample) (target : Int) :
    List Nat :=
  match wristPoll samples target with
  | .ok r => r.times
  | .error _ => []

/-- `motor_diagnostics.py` line 49: medium test offsets. -/
def normalOffsets : List Int := [0, 300, -300, 150, -150, 0]

/-- `motor_diagnostics.py` line 45: large-movement test offsets. -/
def largeOffsets : List Int := [0, 600, -600, 400, -400, 200, -200, 0]

/-- The clamp applied to every goal position before it is written:
`max(safe_min, min(safe_max, target_pos))` (`motor_diagnostics.py` line 55,
`wrist_roll_diagnostic.py` line 129). -/
def clampTarget (lo hi t : Int) : Int := max lo (min hi t)

/-- The fallible bus operations used by the movement loop of
`test_single_motor`, indexed by movement number: the `sync_write` of the
goal position, the per-iteration sample reads of the monitoring loop, and
the recovery `Present_Position` read attempted after a failed write. -/
structure MoveEnv where
  syncWrite : Nat → Except String Unit
  samples : Nat → Nat → Except String Sample
  recoveryRead : Nat → Except String Int

/-- State left behind by the movement loop: the final `current_pos`
variable and the list of goal positions passed to `sync_write`, in
order. -/
structure MoveState where
  cur : Int
  written : List Int
  deriving DecidableEq

/-- The movement loop of `test_single_motor` (lines 52-95).  Each movement
clamps `current_pos + offset` into the safe range and writes it; a failed
`sync_write` is caught, and a successful recovery read of the position
continues with the next offset (updating `current_pos`) while a failed one
breaks out of the loop.  A successful write runs the monitoring loop, whose
reads update `current_pos`. -/
def motorMovements (env : MoveEnv) (lo hi : Int) :
    List Int → Nat → Int → MoveState
  | [], _, cur => ⟨cur, []⟩
  | offset :: rest, i, cur =>
    let target := clampTarget lo hi (cur + offset)
    match env.syncWrite i with
    | .error _ =>
      match env.recoveryRead i with
      | .ok v =>
        let r := motorMovements env lo hi rest (i + 1) v
        ⟨r.cur, target :: r.written⟩
      | .error _ => ⟨cur, [target]⟩
    | .ok _ =>
      let p := motorPoll (env.samples i) target cur
      let r := motorMovements env lo hi rest (i + 1) p.cur
      ⟨r.cur, target :: r.written⟩

/-- The fallible operations of `test_single_motor` that are not caught by
an inner handler, plus the movement-loop environment.  The temperature,
voltage and load reads (lines 98-114) are each wrapped in their own
`try`/`except` and cannot influence the returned value, so they are not
modelled. -/
structure TestEnv where
  ping : Except String Nat
  initRead : Except String Int
  torqueOn : Except String Unit
  moves : MoveEnv
  torqueOff : Except String Unit

/-- `test_single_motor` (`motor_diagnostics.py` lines 13-124) reduced to
its returned boolean: a failed ping returns `False` directly (line 26); an
exception from the initial position read (line 29), `enable_torque`
(line 36) or `disable_torque` (line 117) escapes to the outer handler
(line 122) which returns `False`; every failure inside the movement loop is
caught there, and the function then returns `True` (line 120). -/
def test_single_motor (env : TestEnv) (largeMovement : Bool) : Bool :=
  match env.ping with
  | .error _ => false
  | .ok _ =>
    match env.initRead with
    | .error _ => false
    | .ok cur0 =>
      match env.torqueOn with
      | .error _ => false
      | .ok _ =>
        let offsets := if largeMovement then largeOffsets else normalOffsets
        let lo : Int := if largeMovement then 200 else 500
        let hi : Int := if largeMovement then 3800 else 3500
        let _ := motorMovements env.moves lo hi offsets 0 cur0
        match env.torqueOff with
        | .error _ => false
        | .ok _ => true

/-- The clamped goal positions written by the controlled-movement test of
`wrist_roll_diagnostic.py` (lines 126-133): `test_positions` mapped through
the safe-range clamp. -/
def wristTargets (cur : Int) : List Int :=
  [cur, cur + 100, cur - 100, cur].map (clampTarget 500 3500)

@[simp]
lemma consTime_outcome (t : Nat) (r : MotorPollResult) :
    (consTime t r).outcome = r.outcome := rfl

@[simp]
lemma consTime_exitTime (t : Nat) (r : MotorPollResult) :
    (consTime t r).exitTime = r.exitTime := rfl

@[simp]
lemma consTime_times (t : Nat) (r : MotorPollResult) :
    (consTime t r).times = t :: r.times := rfl

@[simp]
lemma consTime_cur (t : Nat) (r : MotorPollResult) :
    (consTime t r).cur = r.cur := rfl

/-- If the simulated sequence first satisfies the convergence test at
attempt `k < 25`, the motor polling loop, resumed at any attempt `j ≤ k`,
stops at attempt `k` with `Converged`, exit time `k * 2` deciseconds, and
`current_pos` set to the sample's value. -/
lemma motorPollAux_converged (seq : Nat → Sample) (target : Int) (k : Nat)
    (hk : k < 25) (hc : motorConv target (seq k) = true) :
    ∀ fuel j cur, fuel + j = 26 → j ≤ k →
      (∀ i, j ≤ i → i < k → motorConv target (seq i) = false) →
      (motorPollAux (okSeq seq) target fuel cur j).outcome = .Converged (k * 2) ∧
      (motorPollAux (okSeq seq) target fuel cur j).exitTime = k * 2 ∧
      (motorPollAux (okSeq seq) target fuel cur j).cur = (seq k).value := by
  intro fuel
  induction fuel with
  | zero => intro j cur hfj hjk _; omega
  | succ fuel ih =>
    intro j cur hfj hjk hmin
    have hguard : j * 2 < 50 := by omega
    rcases eq_or_lt_of_le hjk with heq | hlt
    · subst heq
      simp [motorPollAux, okSeq, hguard, hc]
    · have hcf : motorConv target (seq j) = false := hmin j le_rfl hlt
      have hrec := ih (j + 1) ((seq j).value) (by omega) (by omega)
        (fun i h1 h2 => hmin i (by omega) h2)
      simpa [motorPollAux, okSeq, hguard, hcf] using hrec

/-- If no attempt before the deadline satisfies the convergence test, the
motor polling loop ends with `TimedOut` exactly at 50 deciseconds. -/
lemma motorPollAux_timedOut (seq : Nat → Sample) (target : Int) :
    ∀ fuel j cur, fuel + j = 26 → j ≤ 25 →
      (∀ i, j ≤ i → i < 25 → motorConv target (seq i) = false) →
      (motorPollAux (okSeq seq) target fuel cur j).outcome = .TimedOut ∧
      (motorPollAux (okSeq seq) target fuel cur j).exitTime = 50 := by
  intro fuel
  induction fuel with
  | zero => intro j cur hfj hj25 _; omega
  | succ fuel ih =>
    intro j cur hfj hj25 hmin
    rcases eq_or_lt_of_le hj25 with heq | hlt
    · subst heq
      simp [motorPollAux]
    · have hguard : j * 2 < 50 := by omega
      have hcf : motorConv target (seq j) = false := hmin j le_rfl hlt
      have hrec := ih (j + 1) ((seq j).value) (by omega) (by omega)
        (fun i h1 h2 => hmin i (by omega) h2)
      simpa [motorPollAux, okSeq, hguard, hcf] using hrec

/-- Whatever the samples do (including read errors), a `TimedOut` exit of
the motor polling loop happens at or after the 50-decisecond deadline. -/
lemma motorPollAux_timedOut_ge (samples : Nat → Except String Sample)
    (target : Int) :
    ∀ fuel j cur, 26 ≤ fuel + j →
      (motorPollAux samples target fuel cur j).outcome = .TimedOut →
      50 ≤ (motorPollAux samples target fuel cur j).exitTime := by
  intro fuel
  induction fuel with
  | zero =>
    intro j cur hfj _
    simp only [motorPollAux]
    omega
  | succ fuel ih =>
    intro j cur hfj
    by_cases hguard : j * 2 < 50
    · cases hsam : samples j with
      | error e =>
        simp only [motorPollAux, hsam, if_pos hguard, consTime_outcome,
          consTime_exitTime]
        exact ih (j + 1) cur (by omega)
      | ok s =>
        cases hcv : motorConv target s with
        | true => simp [motorPollAux, hsam, hguard, hcv]
        | false =>
          simp only [motorPollAux, hsam, if_pos hguard, hcv,
            Bool.false_eq_true, if_false, consTime_outcome, consTime_exitTime]
          exact ih (j + 1) s.value (by omega)
    · intro _
      simp only [motorPollAux, if_neg hguard]
      omega

/-- Sample-fetch times of the motor polling loop: all at or after the
resume time, and successive fetches at least 2 deciseconds (one 0.2 s poll
interval) apart. -/
lemma motorPollAux_times (samples : Nat → Except String Sample)
    (target : Int) :
    ∀ fuel j cur,
      (∀ t ∈ (motorPollAux samples target fuel cur j).times, j * 2 ≤ t) ∧
      List.Chain' (fun a b => a + 2 ≤ b)
        (motorPollAux samples target fuel cur j).times := by
  intro fuel
  induction fuel with
  | zero => intro j cur; simp [motorPollAux]
  | succ fuel ih =>
    intro j cur
    by_cases hguard : j * 2 < 50
    · cases hsam : samples j with
      | error e =>
        obtain ⟨hb, hch⟩ := ih (j + 1) cur
        simp only [motorPollAux, hsam, if_pos hguard, consTime_times]
        constructor
        · intro t ht
          rcases List.mem_cons.mp ht with h | h
          · omega
          · have := hb t h; omega
        · rw [List.chain'_cons']
          refine ⟨?_, hch⟩
          intro y hy
          have hmem := List.mem_of_mem_head? hy
          have := hb y hmem; omega
      | ok s =>
        cases hcv : motorConv target s with
        | true => simp [motorPollAux, hsam, hguard, hcv]
        | false =>
          obtain ⟨hb, hch⟩ := ih (j + 1) s.value
          simp only [motorPollAux, hsam, if_pos hguard, hcv,
            Bool.false_eq_true, if_false, consTime_times]
          constructor
          · intro t ht
            rcases List.mem_cons.mp ht with h | h
            · omega
            · have := hb t h; omega
          · rw [List.chain'_cons']
            refine ⟨?_, hch⟩
            intro y hy
            have hmem := List.mem_of_mem_head? hy
            have := hb y hmem; omega
    · simp [motorPollAux, hguard]

/-- The motor polling loop always ends in one of the two classifications
its source can produce: `TimedOut` or `Converged`; in particular it never
signals failure by raising. -/
lemma motorPollAux_outcome_cases (samples : Nat → Except String Sample)
    (target : Int) :
    ∀ fuel j cur,
      (motorPollAux samples target fuel cur j).outcome = .TimedOut ∨
      ∃ e, (motorPollAux samples target fuel cur j).outcome = .Converged e := by
  intro fuel
  induction fuel with
  | zero => intro j cur; left; rfl
  | succ fuel ih =>
    intro j cur
    by_cases hguard : j * 2 < 50
    · cases hsam : samples j with
      | error e =>
        simpa [motorPollAux, hsam, hguard] using ih (j + 1) cur
      | ok s =>
        cases hcv : motorConv target s with
        | true =>
          right
          exact ⟨j * 2, by simp [motorPollAux, hsam, hguard, hcv]⟩
        | false =>
          simpa [motorPollAux, hsam, hguard, hcv] using ih (j + 1) s.value
    · left; simp [motorPollAux, hguard]

/-- If every read before the deadline fails, the `current_pos` variable is
untouched by the motor polling loop. -/
lemma motorPollAux_allError_cur (samples : Nat → Except String Sample)
    (target : Int) :
    ∀ fuel j cur, (∀ i, j ≤ i → i < 25 → ∃ e, samples i = .error e) →
      (motorPollAux samples target fuel cur j).cur = cur := by
  intro fuel
  induction fuel with
  | zero => intro j cur _; rfl
  | succ fuel ih =>
    intro j cur herr
    by_cases hguard : j * 2 < 50
    · obtain ⟨e, he⟩ := herr j le_rfl (by omega)
      simp only [motorPollAux, he, if_pos hguard, consTime_cur]
      exact ih (j + 1) cur (fun i h1 h2 => herr i (by omega) h2)
    · simp [motorPollAux, hguard]

@[simp]
lemma wristCons_outcome (t : Nat) (r : WristPollResult) :
    (wristCons t r).outcome = r.outcome := rfl

@[simp]
lemma wristCons_exitTime (t : Nat) (r : WristPollResult) :
    (wristCons t r).exitTime = r.exitTime := rfl

@[simp]
lemma wristCons_times (t : Nat) (r : WristPollResult) :
    (wristCons t r).times = t :: r.times := rfl

@[simp]
lemma exceptMap_ok (f : WristPollResult → WristPollResult)
    (r : WristPollResult) :
    (Except.ok r : Except String WristPollResult).map f = .ok (f r) := rfl

@[simp]
lemma exceptMap_error (f : WristPollResult → WristPollResult) (e : String) :
    (Except.error e : Except String WristPollResult).map f = .error e := rfl

/-- If the simulated sequence stays not-busy up to attempt `k < 30` and is
within tolerance at `k`, the wrist polling loop, resumed at any attempt
`j ≤ k`, converges at some attempt between `j` and `k`. -/
lemma wristPollAux_converged (seq : Nat → Sample) (target : Int) (k : Nat)
    (hk : k < 30) (hc : ((seq k).value - target).natAbs < 20)
    (hbusy : ∀ i, i ≤ k → (seq i).busy = false) :
    ∀ fuel j lastPos sc, fuel + j = 31 → j ≤ k →
      ∃ i r, j ≤ i ∧ i ≤ k ∧
        wristPollAux (okSeq seq) target fuel lastPos sc j = .ok r ∧
        r.outcome = .Converged i ∧ r.exitTime = i := by
  intro fuel
  induction fuel with
  | zero => intro j _ _ hfj hjk; omega
  | succ fuel ih =>
    intro j lastPos sc hfj hjk
    have hguard : j < 30 := by omega
    have hbj : (seq j).busy = false := hbusy j hjk
    by_cases hcv : wristConv target (seq j) = true
    · refine ⟨j, ⟨.Converged j, j, [j]⟩, le_rfl, hjk, ?_, rfl, rfl⟩
      simp only [wristPollAux, okSeq]
      rw [if_pos hguard, if_pos hcv]
    · have hjlt : j < k := by
        rcases eq_or_lt_of_le hjk with heq | h
        · exfalso
          apply hcv
          subst heq
          simp [wristConv, hbj, hc]
        · exact h
      have hstuck :
          ¬(5 < stuckUpdate lastPos sc (seq j).value ∧ (seq j).busy = true) := by
        rintro ⟨-, hb⟩
        rw [hbj] at hb
        exact Bool.false_ne_true hb
      obtain ⟨i, r, h1, h2, h3, h4, h5⟩ := ih (j + 1) (some (seq j).value)
        (stuckUpdate lastPos sc (seq j).value) (by omega) (by omega)
      refine ⟨i, wristCons j r, by omega, h2, ?_, by simpa using h4,
        by simpa using h5⟩
      simp only [wristPollAux, okSeq]
      rw [if_pos hguard, if_neg hcv, if_neg hstuck, h3]
      rfl

/-- If no attempt before the deadline satisfies the convergence test and
the stuck break never fires — the stuck counter, a pure fold of the
sequence, never exceeds 5 while the busy flag is set — the wrist polling
loop ends with `TimedOut` exactly at 30 deciseconds.  The invariant is
that on entry to iteration `j` the loop state `(lastPos, sc)` equals the
previous sample's value and `wristStuckCount seq (j - 1)`. -/
lemma wristPollAux_timedOut (seq : Nat → Sample) (target : Int)
    (hnc : ∀ i, i < 30 → wristConv target (seq i) = false)
    (hns : ∀ i, i < 30 →
      ¬(5 < wristStuckCount seq i ∧ (seq i).busy = true)) :
    ∀ fuel j lastPos sc, fuel + j = 31 → j ≤ 30 →
      (j = 0 → lastPos = none) →
      (0 < j → lastPos = some ((seq (j - 1)).value) ∧
        sc = wristStuckCount seq (j - 1)) →
      ∃ ts, wristPollAux (okSeq seq) target fuel lastPos sc j =
        .ok ⟨.TimedOut, 30, ts⟩ := by
  intro fuel
  induction fuel with
  | zero => intro j _ _ hfj hj30 _ _; omega
  | succ fuel ih =>
    intro j lastPos sc hfj hj30 hlp0 hlp
    rcases eq_or_lt_of_le hj30 with heq | hguard
    · subst heq
      exact ⟨[], by simp [wristPollAux]⟩
    · have hcv : ¬(wristConv target (seq j) = true) := by
        simp [hnc j hguard]
      have hsc : stuckUpdate lastPos sc (seq j).value =
          wristStuckCount seq j := by
        rcases Nat.eq_zero_or_pos j with hj0 | hjpos
        · subst hj0
          rw [hlp0 rfl]
          rfl
        · obtain ⟨jp, rfl⟩ : ∃ jp, j = jp + 1 := ⟨j - 1, by omega⟩
          obtain ⟨h1, h2⟩ := hlp hjpos
          simp only [Nat.add_sub_cancel] at h1 h2
          rw [h1, h2]
          rfl
      have hstuck :
          ¬(5 < stuckUpdate lastPos sc (seq j).value ∧
            (seq j).busy = true) := by
        rw [hsc]
        exact hns j hguard
      obtain ⟨ts, hts⟩ := ih (j + 1) (some ((seq j).value))
        (wristStuckCount seq j) (by omega) (by omega)
        (fun h => absurd h (by omega))
        (fun _ => ⟨by simp, by simp⟩)
      refine ⟨j :: ts, ?_⟩
      simp only [wristPollAux, okSeq]
      rw [if_pos hguard, if_neg hcv, if_neg hstuck, hsc, hts]
      rfl

/-- Whatever the samples do, a `TimedOut` exit of the wrist polling loop
happens at or after the 30-decisecond deadline. -/
lemma wristPollAux_timedOut_ge (samples : Nat → Except String Sample)
    (target : Int) :
    ∀ fuel j lastPos sc r, 31 ≤ fuel + j →
      wristPollAux samples target fuel lastPos sc j = .ok r →
      r.outcome = .TimedOut → 30 ≤ r.exitTime := by
  intro fuel
  induction fuel with
  | zero =>
    intro j lastPos sc r hfj hok _
    simp only [wristPollAux, Except.ok.injEq] at hok
    subst hok
    simp only []
    omega
  | succ fuel ih =>
    intro j lastPos sc r hfj
    by_cases hguard : j < 30
    · cases hsam : samples j with
      | error e => simp [wristPollAux, hsam, hguard]
      | ok s =>
        by_cases hcv : wristConv target s = true
        · intro hok ho
          simp only [wristPollAux, hsam, if_pos hguard, if_pos hcv,
            Except.ok.injEq] at hok
          subst hok
          simp at ho
        · by_cases hstuck : 5 < stuckUpdate lastPos sc s.value ∧ s.busy = true
          · intro hok ho
            simp only [wristPollAux, hsam, if_pos hguard, if_neg hcv,
              if_pos hstuck, Except.ok.injEq] at hok
            subst hok
            simp at ho
          · intro hok ho
            simp only [wristPollAux, hsam, if_pos hguard, if_neg hcv,
              if_neg hstuck] at hok
            cases hrec : wristPollAux samples target fuel (some s.value)
                (stuckUpdate lastPos sc s.value) (j + 1) with
            | error e => rw [hrec] at hok; simp at hok
            | ok r' =>
              rw [hrec] at hok
              simp only [exceptMap_ok, Except.ok.injEq] at hok
              subst hok
              have := ih (j + 1) (some s.value) _ r' (by omega) hrec
                (by simpa using ho)
              simpa using this
    · intro hok ho
      simp only [wristPollAux, if_neg hguard, Except.ok.injEq] at hok
      subst hok
      simp only []
      omega

/-- Sample-fetch times of the wrist polling loop: all at or after the
resume time, and successive fetches at least 1 decisecond (one 0.1 s poll
interval) apart. -/
lemma wristPollAux_times (samples : Nat → Except String Sample)
    (target : Int) :
    ∀ fuel j lastPos sc r,
      wristPollAux samples target fuel lastPos sc j = .ok r →
      (∀ t ∈ r.times, j ≤ t) ∧
      List.Chain' (fun a b => a + 1 ≤ b) r.times := by
  intro fuel
  induction fuel with
  | zero =>
    intro j lastPos sc r hok
    simp only [wristPollAux, Except.ok.injEq] at hok
    subst hok
    simp
  | succ fuel ih =>
    intro j lastPos sc r
    by_cases hguard : j < 30
    · cases hsam : samples j with
      | error e => simp [wristPollAux, hsam, hguard]
      | ok s =>
        by_cases hcv : wristConv target s = true
        · intro hok
          simp only [wristPollAux, hsam, if_pos hguard, if_pos hcv,
            Except.ok.injEq] at hok
          subst hok
          simp
        · by_cases hstuck : 5 < stuckUpdate lastPos sc s.value ∧ s.busy = true
          · intro hok
            simp only [wristPollAux, hsam, if_pos hguard, if_neg hcv,
              if_pos hstuck, Except.ok.injEq] at hok
            subst hok
            simp
          · intro hok
            simp only [wristPollAux, hsam, if_pos hguard, if_neg hcv,
              if_neg hstuck] at hok
            cases hrec : wristPollAux samples target fuel (some s.value)
                (stuckUpdate lastPos sc s.value) (j + 1) with
            | error e => rw [hrec] at hok; simp at hok
            | ok r' =>
              rw [hrec] at hok
              simp only [exceptMap_ok, Except.ok.injEq] at hok
              subst hok
              obtain ⟨hb, hch⟩ := ih (j + 1) (some s.value) _ r' hrec
              constructor
              · intro t ht
                simp only [wristCons_times, List.mem_cons] at ht
                rcases ht with h | h
                · omega
                · have := hb t h; omega
              · simp only [wristCons_times]
                rw [List.chain'_cons']
                refine ⟨?_, hch⟩
                intro y hy
                have hmem := List.mem_of_mem_head? hy
                have := hb y hmem; omega
    · intro hok
      simp only [wristPollAux, if_neg hguard, Except.ok.injEq] at hok
      subst hok
      simp

/-- On an infallible simulated sequence the wrist polling loop never
raises: it always returns a classified result. -/
lemma wristPollAux_total (seq : Nat → Sample) (target : Int) :
    ∀ fuel j lastPos sc,
      ∃ r, wristPollAux (okSeq seq) target fuel lastPos sc j = .ok r := by
  intro fuel
  induction fuel with
  | zero => intro j lastPos sc; exact ⟨_, rfl⟩
  | succ fuel ih =>
    intro j lastPos sc
    by_cases hguard : j < 30
    · by_cases hcv : wristConv target (seq j) = true
      · refine ⟨⟨.Converged j, j, [j]⟩, ?_⟩
        simp only [wristPollAux, okSeq]
        rw [if_pos hguard, if_pos hcv]
      · by_cases hstuck :
            5 < stuckUpdate lastPos sc (seq j).value ∧ (seq j).busy = true
        · refine ⟨⟨.Stuck j, j, [j]⟩, ?_⟩
          simp only [wristPollAux, okSeq]
          rw [if_pos hguard, if_neg hcv, if_pos hstuck]
        · obtain ⟨r, hr⟩ := ih (j + 1) (some ((seq j).value))
            (stuckUpdate lastPos sc (seq j).value)
          refine ⟨wristCons j r, ?_⟩
          simp only [wristPollAux, okSeq]
          rw [if_pos hguard, if_neg hcv, if_neg hstuck, hr]
          rfl
    · refine ⟨⟨.TimedOut, j, []⟩, ?_⟩
      simp only [wristPollAux]
      rw [if_neg hguard]

/-- An error escaping the wrist polling loop is an error some sample read
produced before the deadline. -/
lemma wristPollAux_error (samples : Nat → Except String Sample)
    (target : Int) :
    ∀ fuel j lastPos sc e,
      wristPollAux samples target fuel lastPos sc j = .error e →
      ∃ k, j ≤ k ∧ k < 30 ∧ samples k = .error e := by
  intro fuel
  induction fuel with
  | zero => intro j lastPos sc e hok; simp [wristPollAux] at hok
  | succ fuel ih =>
    intro j lastPos sc e
    by_cases hguard : j < 30
    · cases hsam : samples j with
      | error e0 =>
        intro hok
        simp only [wristPollAux, hsam, if_pos hguard,
          Except.error.injEq] at hok
        exact ⟨j, le_rfl, hguard, by rw [hsam, hok]⟩
      | ok s =>
        by_cases hcv : wristConv target s = true
        · intro hok
          simp [wristPollAux, hsam, hguard, hcv] at hok
        · by_cases hstuck : 5 < stuckUpdate lastPos sc s.value ∧ s.busy = true
          · intro hok
            simp only [wristPollAux, hsam, if_pos hguard, if_neg hcv,
              if_pos hstuck] at hok
            exact absurd hok (by simp)
          · intro hok
            simp only [wristPollAux, hsam, if_pos hguard, if_neg hcv,
              if_neg hstuck] at hok
            cases hrec : wristPollAux samples target fuel (some s.value)
                (stuckUpdate lastPos sc s.value) (j + 1) with
            | error e0 =>
              rw [hrec] at hok
              simp only [exceptMap_error, Except.error.injEq] at hok
              subst hok
              obtain ⟨k, h1, h2, h3⟩ := ih (j + 1) (some s.value) _ e0 hrec
              exact ⟨k, by omega, h2, h3⟩
            | ok r' => rw [hrec] at hok; simp at hok
    · intro hok
      simp [wristPollAux, hguard] at hok

/-- If the `Moving` flag stays set for the whole run and the value is
constant on a window of 7 consecutive attempts `[m, m + 6]` ending before
the deadline, the wrist polling loop stops with `Stuck` no later than
attempt `m + 6`: the stuck counter exceeds 5 inside the window, while
convergence never fires (it needs the flag clear). -/
lemma wristPollAux_stuck (seq : Nat → Sample) (target : Int) (m : Nat)
    (hm : m + 6 < 30)
    (hbusy : ∀ i, i < 30 → (seq i).busy = true)
    (hconst : ∀ i, i ≤ m + 6 → m ≤ i → (seq i).value = (seq m).value) :
    ∀ fuel j lastPos sc, fuel + j = 31 → j ≤ m + 6 →
      (m < j → lastPos = some ((seq (j - 1)).value) ∧ j - 1 - m ≤ sc) →
      ∃ i r, j ≤ i ∧ i ≤ m + 6 ∧
        wristPollAux (okSeq seq) target fuel lastPos sc j = .ok r ∧
        r.outcome = .Stuck i ∧ r.exitTime = i := by
  intro fuel
  induction fuel with
  | zero => intro j _ _ hfj hjm _; omega
  | succ fuel ih =>
    intro j lastPos sc hfj hjm hinv
    have hguard : j < 30 := by omega
    have hbj : (seq j).busy = true := hbusy j hguard
    have hcv : ¬(wristConv target (seq j) = true) := by
      simp [wristConv, hbj]
    by_cases hstuck :
        5 < stuckUpdate lastPos sc (seq j).value ∧ (seq j).busy = true
    · refine ⟨j, ⟨.Stuck j, j, [j]⟩, le_rfl, hjm, ?_, rfl, rfl⟩
      simp only [wristPollAux, okSeq]
      rw [if_pos hguard, if_neg hcv, if_pos hstuck]
    · have hjlt : j < m + 6 := by
        rcases eq_or_lt_of_le hjm with heq | h
        · exfalso
          apply hstuck
          obtain ⟨hlp, hsc⟩ := hinv (by omega)
          refine ⟨?_, hbj⟩
          rw [hlp]
          simp only [stuckUpdate]
          have hv1 : (seq j).value = (seq m).value :=
            hconst _ (by omega) (by omega)
          have hv2 : (seq (j - 1)).value = (seq m).value :=
            hconst _ (by omega) (by omega)
          rw [hv1, hv2, if_pos (by simp)]
          omega
        · exact h
      have hscnew : m < j + 1 →
          j + 1 - 1 - m ≤ stuckUpdate lastPos sc (seq j).value := by
        intro _
        rcases Nat.lt_or_ge m j with hmj | hmj
        · obtain ⟨hlp, hsc⟩ := hinv hmj
          rw [hlp]
          simp only [stuckUpdate]
          have hv1 : (seq j).value = (seq m).value :=
            hconst _ (by omega) (by omega)
          have hv2 : (seq (j - 1)).value = (seq m).value :=
            hconst _ (by omega) (by omega)
          rw [hv1, hv2, if_pos (by simp)]
          omega
        · omega
      obtain ⟨i, r, h1, h2, h3, h4, h5⟩ := ih (j + 1) (some ((seq j).value))
        (stuckUpdate lastPos sc (seq j).value) (by omega) (by omega)
        (fun hmlt => ⟨by simp, hscnew hmlt⟩)
      refine ⟨i, wristCons j r, by omega, h2, ?_, by simpa using h4,
        by simpa using h5⟩
      simp only [wristPollAux, okSeq]
      rw [if_pos hguard, if_neg hcv, if_neg hstuck, h3]
      rfl

/-- The safe-range clamp keeps every value inside `[lo, hi]` whenever the
range is nonempty. -/
lemma clampTarget_bounds (lo hi t : Int) (hlh : lo ≤ hi) :
    lo ≤ clampTarget lo hi t ∧ clampTarget lo hi t ≤ hi := by
  unfold clampTarget
  constructor
  · exact le_max_left lo (min hi t)
  · exact max_le hlh (min_le_left hi t)

/-- Every goal position the movement loop hands to `sync_write` is a
clamped value, hence inside `[lo, hi]`. -/
lemma motorMovements_written (env : MoveEnv) (lo hi : Int) (hlh : lo ≤ hi) :
    ∀ offsets i cur, ∀ t ∈ (motorMovements env lo hi offsets i cur).written,
      lo ≤ t ∧ t ≤ hi := by
  intro offsets
  induction offsets with
  | nil => intro i cur t ht; simp [motorMovements] at ht
  | cons offset rest ih =>
    intro i cur t ht
    simp only [motorMovements] at ht
    cases hsw : env.syncWrite i with
    | error e =>
      rw [hsw] at ht
      cases hrr : env.recoveryRead i with
      | ok v =>
        rw [hrr] at ht
        simp only [List.mem_cons] at ht
        rcases ht with h | h
        · subst h; exact clampTarget_bounds lo hi _ hlh
        · exact ih (i + 1) v t h
      | error e2 =>
        rw [hrr] at ht
        simp only [List.mem_cons, List.not_mem_nil, or_false] at ht
        subst ht
        exact clampTarget_bounds lo hi _ hlh
    | ok u =>
      rw [hsw] at ht
      simp only [List.mem_cons] at ht
      rcases ht with h | h
      · subst h; exact clampTarget_bounds lo hi _ hlh
      · exact ih (i + 1) _ t h

/-- C1: a fetched sample inside the tolerance window with the busy flag
clear stops the polling loop at once with `Converged`, and a simulated
sequence that enters the window (busy false) at attempt `k` before the
deadline yields `Converged` with elapsed time at most the timeout.  For
`motor_diagnostics` (first conjunct) attempt `k` is the first window entry
and the loop stops exactly there, at `k * 2` deciseconds `≤ 50` (the 5.0 s
timeout); for `wrist_roll_diagnostic` (second conjunct) the loop converges
at some attempt `≤ kw`, at `≤ 30` deciseconds (the 3.0 s timeout). -/
theorem claim_C1 (seqM : Nat → Sample) (targetM cur0 : Int) (k : Nat)
    (hk : k < 25) (hc : motorConv targetM (seqM k) = true)
    (hmin : ∀ j, j < k → motorConv targetM (seqM j) = false)
    (seqW : Nat → Sample) (targetW : Int) (kw : Nat) (hkw : kw < 30)
    (hbw : ∀ j, j ≤ kw → (seqW j).busy = false)
    (hcw : ((seqW kw).value - targetW).natAbs < 20) :
    ((motorPoll (okSeq seqM) targetM cur0).outcome = .Converged (k * 2) ∧
      (motorPoll (okSeq seqM) targetM cur0).exitTime = k * 2 ∧
      k * 2 ≤ 50) ∧
    (∃ i r, i ≤ kw ∧ wristPoll (okSeq seqW) targetW = .ok r ∧
      r.outcome = .Converged i ∧ r.exitTime = i ∧ r.exitTime ≤ 30) := by
  constructor
  · obtain ⟨h1, h2, h3⟩ := motorPollAux_converged seqM targetM k hk hc 26 0
      cur0 rfl (by omega) (fun i _ h2 => hmin i h2)
    exact ⟨h1, h2, by omega⟩
  · obtain ⟨i, r, h1, h2, h3, h4, h5⟩ := wristPollAux_converged seqW targetW
      kw hkw hcw hbw 31 0 none 0 rfl (by omega)
    exact ⟨i, r, h2, h3, h4, h5, by omega⟩

/-- Simulated motor sequence for the C1 witness: out of the window and
busy for two samples, then on target and idle. -/
def seqC1M : Nat → Sample :=
  fun i => if i < 2 then ⟨1448, true⟩ else ⟨2048, false⟩

/-- Simulated wrist sequence for the C1 witness: immediately in the
window and idle. -/
def seqC1W : Nat → Sample := fun _ => ⟨2060, false⟩

theorem claim_C1_witness :
    ((motorPoll (okSeq seqC1M) 2048 1448).outcome = .Converged (2 * 2) ∧
      (motorPoll (okSeq seqC1M) 2048 1448).exitTime = 2 * 2 ∧
      2 * 2 ≤ 50) ∧
    (∃ i r, i ≤ 0 ∧ wristPoll (okSeq seqC1W) 2048 = .ok r ∧
      r.outcome = .Converged i ∧ r.exitTime = i ∧ r.exitTime ≤ 30) :=
  claim_C1 seqC1M 2048 1448 2 (by decide) (by decide) (by decide)
    seqC1W 2048 0 (by decide) (by decide) (by decide)

/-- C2: when no sample ever meets the convergence test and, for the wrist
variant, the stuck condition never fires — the stuck counter
`wristStuckCount`, the pure fold the loop computes, never exceeds 5 while
the busy flag is set — the loop ends with `TimedOut`, exactly at the
deadline: 50 deciseconds (5.0 s) for `motor_diagnostics`, 30 deciseconds
(3.0 s) for `wrist_roll_diagnostic`.  Moreover a `TimedOut` exit, on any
sample stream whatsoever, can only happen at or after the deadline. -/
theorem claim_C2 (seqM : Nat → Sample) (targetM cur0 : Int)
    (hM : ∀ k, k < 25 → motorConv targetM (seqM k) = false)
    (seqW : Nat → Sample) (targetW : Int)
    (hWc : ∀ k, k < 30 → wristConv targetW (seqW k) = false)
    (hWs : ∀ k, k < 30 →
      ¬(5 < wristStuckCount seqW k ∧ (seqW k).busy = true)) :
    ((motorPoll (okSeq seqM) targetM cur0).outcome = .TimedOut ∧
      (motorPoll (okSeq seqM) targetM cur0).exitTime = 50) ∧
    (∃ ts, wristPoll (okSeq seqW) targetW = .ok ⟨.TimedOut, 30, ts⟩) ∧
    (∀ samples target cur1,
      (motorPoll samples target cur1).outcome = .TimedOut →
      50 ≤ (motorPoll samples target cur1).exitTime) ∧
    (∀ samples target r, wristPoll samples target = .ok r →
      r.outcome = .TimedOut → 30 ≤ r.exitTime) := by
  refine ⟨?_, ?_, ?_, ?_⟩
  · exact motorPollAux_timedOut seqM targetM 26 0 cur0 rfl (by omega)
      (fun i _ h => hM i h)
  · exact wristPollAux_timedOut seqW targetW hWc hWs 31 0 none 0 rfl
      (by omega) (fun _ => rfl) (fun h => absurd h (by omega))
  · intro samples target cur1 h
    exact motorPollAux_timedOut_ge samples target 26 0 cur1 (by omega) h
  · intro samples target r hok ho
    exact wristPollAux_timedOut_ge samples target 31 0 none 0 r (by omega)
      hok ho

/-- Simulated motor sequence for the C2 witness: never in the window. -/
def seqC2M : Nat → Sample := fun _ => ⟨1000, true⟩

/-- Simulated wrist sequence for the C2 witness: frozen at 3000, far from
the target, with the busy flag clear — the stuck counter climbs past 5 but
the stuck break needs the busy flag, so it never fires and the loop must
run into the timeout. -/
def seqC2W : Nat → Sample := fun _ => ⟨3000, false⟩

theorem claim_C2_witness :
    (motorPoll (okSeq seqC2M) 2048 0).outcome = .TimedOut ∧
    (motorPoll (okSeq seqC2M) 2048 0).exitTime = 50 ∧
    (∃ ts, wristPoll (okSeq seqC2W) 0 = .ok ⟨.TimedOut, 30, ts⟩) := by
  obtain ⟨⟨h1, h2⟩, h3, -, -⟩ := claim_C2 seqC2M 2048 0 (by decide)
    seqC2W 0 (by decide) (by decide)
  exact ⟨h1, h2, h3⟩

/-- C3: if the `Moving` flag stays set and the sampled position is
constant on a window of 7 consecutive attempts (so the value changed by
less than 2 units across more than 5 consecutive samples) ending before
the deadline, the wrist polling loop ends with `Stuck` — not `TimedOut` —
inside the window, strictly before the 30-decisecond (3.0 s) timeout. -/
theorem claim_C3 (seq : Nat → Sample) (target : Int) (m : Nat)
    (hm : m + 6 < 30)
    (hbusy : ∀ i, i < 30 → (seq i).busy = true)
    (hconst : ∀ i, i ≤ m + 6 → m ≤ i → (seq i).value = (seq m).value) :
    ∃ i r, i ≤ m + 6 ∧ wristPoll (okSeq seq) target = .ok r ∧
      r.outcome = .Stuck i ∧ r.exitTime = i ∧ r.exitTime < 30 := by
  obtain ⟨i, r, h1, h2, h3, h4, h5⟩ := wristPollAux_stuck seq target m hm
    hbusy hconst 31 0 none 0 rfl (by omega) (fun h => absurd h (by omega))
  exact ⟨i, r, h2, h3, h4, h5, by omega⟩

/-- Simulated wrist sequence for the C3 witness: still moving for three
samples, then frozen at 500 with the busy flag stuck on. -/
def seqC3 : Nat → Sample :=
  fun i => if i < 3 then ⟨100 * (i : Int), true⟩ else ⟨500, true⟩

theorem claim_C3_witness :
    ∃ i r, i ≤ 3 + 6 ∧ wristPoll (okSeq seqC3) 3000 = .ok r ∧
      r.outcome = .Stuck i ∧ r.exitTime = i ∧ r.exitTime < 30 :=
  claim_C3 seqC3 3000 3 (by decide) (by decide) (by decide)

/-- C4: normal non-convergence is never an exception.  The motor loop
swallows even read errors and always ends in a classification (`TimedOut`
or `Converged`); the wrist loop returns a classification whenever every
read succeeds, and any error that does escape it is exactly an I/O error
produced by a sample read before the deadline. -/
theorem claim_C4 :
    (∀ samples target cur0,
      (motorPoll samples target cur0).outcome = .TimedOut ∨
      ∃ e, (motorPoll samples target cur0).outcome = .Converged e) ∧
    (∀ (seq : Nat → Sample) target,
      ∃ r, wristPoll (okSeq seq) target = .ok r) ∧
    (∀ samples target e, wristPoll samples target = .error e →
      ∃ k, k < 30 ∧ samples k = .error e) := by
  refine ⟨?_, ?_, ?_⟩
  · intro samples target cur0
    exact motorPollAux_outcome_cases samples target 26 0 cur0
  · intro seq target
    exact wristPollAux_total seq target 31 0 none 0
  · intro samples target e h
    obtain ⟨k, -, h2, h3⟩ := wristPollAux_error samples target 31 0 none 0 e h
    exact ⟨k, h2, h3⟩

/-- A sample stream whose every read fails, for the C4 witness. -/
def errSamples : Nat → Except String Sample :=
  fun _ => .error "bus read failed"

theorem claim_C4_witness :
    ∃ k, k < 30 ∧ errSamples k = .error "bus read failed" :=
  claim_C4.2.2 errSamples 0 "bus read failed" rfl

/-- C5: the poller's terminal result is a value of the tri-state
`PollOutcome` type — `Converged`, `TimedOut` or `Stuck` — not a boolean
flag and, on an infallible sample stream, not a thrown failure. -/
theorem claim_C5 :
    (∀ samples target cur0,
      (∃ e, (motorPoll samples target cur0).outcome = .Converged e) ∨
      (motorPoll samples target cur0).outcome = .TimedOut ∨
      ∃ e, (motorPoll samples target cur0).outcome = .Stuck e) ∧
    (∀ (seq : Nat → Sample) target,
      ∃ r, wristPoll (okSeq seq) target = .ok r ∧
        ((∃ e, r.outcome = .Converged e) ∨ r.outcome = .TimedOut ∨
          ∃ e, r.outcome = .Stuck e)) := by
  constructor
  · intro samples target cur0
    rcases motorPollAux_outcome_cases samples target 26 0 cur0 with h | ⟨e, h⟩
    · exact Or.inr (Or.inl h)
    · exact Or.inl ⟨e, h⟩
  · intro seq target
    obtain ⟨r, hr⟩ := wristPollAux_total seq target 31 0 none 0
    refine ⟨r, hr, ?_⟩
    cases ho : r.outcome with
    | Converged e => exact Or.inl ⟨e, rfl⟩
    | TimedOut => exact Or.inr (Or.inl rfl)
    | Stuck e => exact Or.inr (Or.inr ⟨e, rfl⟩)

/-- C6: successive invocations of the sampling source are at least one
poll interval apart: 2 deciseconds (0.2 s) in `motor_diagnostics` and
1 decisecond (0.1 s) in `wrist_roll_diagnostic`, on every run. -/
theorem claim_C6 :
    (∀ samples target cur0,
      List.Chain' (fun a b => a + 2 ≤ b)
        (motorPoll samples target cur0).times) ∧
    (∀ samples target,
      List.Chain' (fun a b => a + 1 ≤ b) (wristTimes samples target)) := by
  constructor
  · intro samples target cur0
    exact (motorPollAux_times samples target 26 0 cur0).2
  · intro samples target
    cases hr : wristPoll samples target with
    | error e => simp [wristTimes, hr]
    | ok r =>
      have := (wristPollAux_times samples target 31 0 none 0 r hr).2
      simpa [wristTimes, hr] using this

/-- A movement environment whose writes succeed and whose every sample
reads position 1010 with the motor idle. -/
def cexEnv : MoveEnv :=
  ⟨fun _ => .ok (), fun _ _ => .ok ⟨1010, false⟩, fun _ => .ok 0⟩

/-- C7 counterexample: the `motor_diagnostics` polling loop does change a
variable observable outside itself — it reassigns `current_pos`, which the
movement loop then uses to compute later targets.  Starting from
`current_pos = 1000`, one polling call leaves `current_pos = 1010 ≠ 1000`,
and the second movement's written target is 1310, not the 1300 that the
unchanged `current_pos` would give. -/
theorem claim_C7_counterexample :
    (motorPoll (okSeq fun _ => ⟨1010, false⟩) 1000 1000).cur ≠ 1000 ∧
    (motorMovements cexEnv 500 3500 normalOffsets 0 1000).written =
      [1000, 1310, 710, 1160, 860, 1010] ∧
    clampTarget 500 3500 (1000 + 300) = 1300 := by
  exact ⟨by decide, by decide, by decide⟩

/-- C7 amended: a polling call performs no side effect beyond invoking the
sampling callback, except that the `motor_diagnostics` loop reassigns the
enclosing `current_pos` variable to the last successfully sampled value
(later movement targets are computed from it).  When every read fails,
`current_pos` is untouched; when the first sample already converges,
`current_pos` becomes that sample's value. -/
theorem claim_C7_amended (samples : Nat → Except String Sample)
    (target cur0 : Int) (seq : Nat → Sample)
    (herr : ∀ k, k < 25 → ∃ e, samples k = .error e)
    (hc : motorConv target (seq 0) = true) :
    (motorPoll samples target cur0).cur = cur0 ∧
    (motorPoll (okSeq seq) target cur0).cur = (seq 0).value := by
  constructor
  · exact motorPollAux_allError_cur samples target 26 0 cur0
      (fun i _ h => herr i h)
  · exact (motorPollAux_converged seq target 0 (by omega) hc 26 0 cur0 rfl
      (by omega) (fun i h1 h2 => absurd h2 (by omega))).2.2

theorem claim_C7_amended_witness :
    (motorPoll (fun _ => .error "io") 0 1000).cur = 1000 ∧
    (motorPoll (okSeq fun _ => ⟨5, false⟩) 0 1000).cur = 5 :=
  claim_C7_amended (fun _ => .error "io") 0 1000 (fun _ => ⟨5, false⟩)
    (fun k _ => ⟨"io", rfl⟩) (by decide)

/-- C8: the per-script thresholds are exactly as documented.  The motor
loop converges at distance 29 but not at distance 30 (tolerance 30); the
wrist loop converges at distance 19 but not at distance 20 (tolerance 20);
with the `Moving` flag set, a frozen position trips the stuck break at
attempt 6 — after six consecutive samples that changed by less than 2
units, i.e. strictly more than 5 — while a position that freezes for only
5 consecutive samples at a time, or a frozen position with the `Moving`
flag clear, never trips it and times out instead. -/
theorem claim_C8 :
    (motorPoll (okSeq fun _ => ⟨2077, false⟩) 2048 0).outcome =
      .Converged 0 ∧
    (motorPoll (okSeq fun _ => ⟨2078, false⟩) 2048 0).outcome = .TimedOut ∧
    wristOutcome (okSeq fun _ => ⟨2067, false⟩) 2048 =
      some (.Converged 0) ∧
    wristOutcome (okSeq fun _ => ⟨2068, false⟩) 2048 = some .TimedOut ∧
    wristOutcome (okSeq fun _ => ⟨3000, true⟩) 0 = some (.Stuck 6) ∧
    wristOutcome
      (okSeq fun i => ⟨3000 + ((i / 6 : Nat) : Int) * 100, true⟩) 0 =
      some .TimedOut ∧
    wristOutcome (okSeq fun _ => ⟨3000, false⟩) 0 = some .TimedOut := by
  exact ⟨by decide, by decide, by decide, by decide, by decide, by decide,
    by decide⟩

/-- C9: every goal position passed to `sync_write` is clamped into the
script's safe range first: `[500, 3500]` for the normal movement mode and
for `wrist_roll_diagnostic`, `[200, 3800]` for the large-movement mode,
whatever the current position and requested offset are. -/
theorem claim_C9 :
    (∀ env cur0,
      ∀ t ∈ (motorMovements env 500 3500 normalOffsets 0 cur0).written,
        500 ≤ t ∧ t ≤ 3500) ∧
    (∀ env cur0,
      ∀ t ∈ (motorMovements env 200 3800 largeOffsets 0 cur0).written,
        200 ≤ t ∧ t ≤ 3800) ∧
    (∀ cur, ∀ t ∈ wristTargets cur, 500 ≤ t ∧ t ≤ 3500) := by
  refine ⟨?_, ?_, ?_⟩
  · intro env cur0 t ht
    exact motorMovements_written env 500 3500 (by omega) normalOffsets 0
      cur0 t ht
  · intro env cur0 t ht
    exact motorMovements_written env 200 3800 (by omega) largeOffsets 0
      cur0 t ht
  · intro cur t ht
    simp only [wristTargets, List.mem_map] at ht
    obtain ⟨x, -, rfl⟩ := ht
    exact clampTarget_bounds 500 3500 x (by omega)

/-- A movement environment whose operations all succeed, the motor idle at
position 0. -/
def allOkEnv : MoveEnv :=
  ⟨fun _ => .ok (), fun _ _ => .ok ⟨0, false⟩, fun _ => .ok 0⟩

theorem claim_C9_witness :
    3500 ∈ (motorMovements allOkEnv 500 3500 normalOffsets 0 10000).written ∧
    (500 ≤ (3500 : Int) ∧ (3500 : Int) ≤ 3500) :=
  ⟨by decide, claim_C9.1 allOkEnv 10000 3500 (by decide)⟩

/-- A test environment whose motor never converges: every sample far from
any target with the busy flag set, every bus operation succeeding. -/
def envTimeoutAll : TestEnv :=
  ⟨.ok 777, .ok 2048, .ok (),
    ⟨fun _ => .ok (), fun _ _ => .ok ⟨0, true⟩, fun _ => .ok 0⟩, .ok ()⟩

/-- A test environment whose every movement command fails while position
reads still succeed. -/
def envWriteFail : TestEnv :=
  ⟨.ok 777, .ok 2048, .ok (),
    ⟨fun _ => .error "write failed", fun _ _ => .ok ⟨0, false⟩,
      fun _ => .ok 2048⟩, .ok ()⟩

/-- C10: `test_single_motor` returns `False` exactly when the initial ping
fails or an exception escapes the whole test body — that is, when the
initial position read, `enable_torque`, or `disable_torque` raises; in
every other case it returns `True`.  In particular a motor whose every
movement times out, or whose movement commands all fail while position
reads succeed, is still reported as passed. -/
theorem claim_C10 :
    (∀ env lm, test_single_motor env lm = false ↔
      ((∃ e, env.ping = .error e) ∨ (∃ e, env.initRead = .error e) ∨
        (∃ e, env.torqueOn = .error e) ∨
        (∃ e, env.torqueOff = .error e))) ∧
    test_single_motor envTimeoutAll false = true ∧
    test_single_motor envWriteFail false = true := by
  refine ⟨?_, by decide, by decide⟩
  intro env lm
  obtain ⟨ping, initRead, torqueOn, moves, torqueOff⟩ := env
  cases ping with
  | error e => simp [test_single_motor]
  | ok n =>
    cases initRead with
    | error e => simp [test_single_motor]
    | ok v =>
      cases torqueOn with
      | error e => simp [test_single_motor]
      | ok u =>
        cases torqueOff with
        | error e => simp [test_single_motor]
        | ok w => simp [test_single_motor]

/-- A test environment whose motor does not answer the ping. -/
def envPingFail : TestEnv :=
  ⟨.error "no response", .ok 2048, .ok (), allOkEnv, .ok ()⟩

theorem claim_C10_witness : test_single_motor envPingFail false = false :=
  (claim_C10.1 envPingFail false).mpr (Or.inl ⟨"no response", rfl⟩)

end LeRobotDiag
